import Mathlib

/-!
Verification development for the papergen multi-LLM orchestration core
(`src/papergen/ai/multi_llm.py`, `src/papergen/ai/claude_client.py`,
`src/papergen/discovery/brainstorm.py`).

The Python code is shallowly embedded: JSON values become an inductive
`JValue`; `json.loads` becomes a fuel-indexed recursive parser `jsonLoads`
over the character list; the greedy regex `\{[\s\S]*\}` used by
`IdeaGenerator._parse_ideas` becomes `extractBraceSpan` (first `{` that
precedes the last `}`, through the last `}`); network effects become
explicit outcome functions passed as parameters; exceptions become
`Except`/`Option` values.
-/

namespace Papergen

/-- JSON values as produced by Python's `json.loads`: objects keep the key
order of the document (Python dicts preserve insertion order).  Numbers are
modelled as integers only: none of the payloads handled by the claims use
fractional numbers, and every universal statement about decoding carries the
decode result as a hypothesis. -/
inductive JValue where
  | null : JValue
  | bool : Bool → JValue
  | num : Int → JValue
  | str : String → JValue
  | arr : List JValue → JValue
  | obj : List (String × JValue) → JValue
deriving Repr

/-- Whitespace accepted between JSON tokens (as in RFC 8259 / `json.loads`). -/
def isJsonWs (c : Char) : Bool :=
  c = ' ' || c = '\t' || c = '\n' || c = '\r'

/-- Skip JSON whitespace. -/
def skipWs : List Char → List Char
  | [] => []
  | c :: cs => if isJsonWs c then skipWs cs else c :: cs

/-- Value of a hexadecimal digit, if any. -/
def hexDigitVal (c : Char) : Option Nat :=
  if '0' ≤ c ∧ c ≤ '9' then some (c.toNat - '0'.toNat)
  else if 'a' ≤ c ∧ c ≤ 'f' then some (c.toNat - 'a'.toNat + 10)
  else if 'A' ≤ c ∧ c ≤ 'F' then some (c.toNat - 'A'.toNat + 10)
  else none

/-- Parse the body of a JSON string (after the opening quote), handling the
escape sequences of `json.loads`; returns the decoded characters and the
remaining input after the closing quote. -/
def parseStringChars : List Char → Option (List Char × List Char)
  | [] => none
  | '"' :: rest => some ([], rest)
  | '\\' :: rest =>
    match rest with
    | '"' :: rest2 => (parseStringChars rest2).map fun (s, r) => ('"' :: s, r)
    | '\\' :: rest2 => (parseStringChars rest2).map fun (s, r) => ('\\' :: s, r)
    | '/' :: rest2 => (parseStringChars rest2).map fun (s, r) => ('/' :: s, r)
    | 'b' :: rest2 =>
      (parseStringChars rest2).map fun (s, r) => (Char.ofNat 8 :: s, r)
    | 'f' :: rest2 =>
      (parseStringChars rest2).map fun (s, r) => (Char.ofNat 12 :: s, r)
    | 'n' :: rest2 => (parseStringChars rest2).map fun (s, r) => ('\n' :: s, r)
    | 'r' :: rest2 => (parseStringChars rest2).map fun (s, r) => ('\r' :: s, r)
    | 't' :: rest2 => (parseStringChars rest2).map fun (s, r) => ('\t' :: s, r)
    | 'u' :: h1 :: h2 :: h3 :: h4 :: rest2 =>
      match hexDigitVal h1, hexDigitVal h2, hexDigitVal h3, hexDigitVal h4 with
      | some a, some b, some c, some d =>
        (parseStringChars rest2).map fun (s, r) =>
          (Char.ofNat (((a * 16 + b) * 16 + c) * 16 + d) :: s, r)
      | _, _, _, _ => none
    | _ => none
  | c :: rest => (parseStringChars rest).map fun (s, r) => (c :: s, r)

/-- Digits at the front of the input, with the remaining input. -/
def takeDigits : List Char → List Char × List Char
  | [] => ([], [])
  | c :: cs =>
    if c.isDigit then
      let (ds, rest) := takeDigits cs
      (c :: ds, rest)
    else ([], c :: cs)

/-- Natural number denoted by a digit list. -/
def digitsToNat (ds : List Char) : Nat :=
  ds.foldl (fun acc c => acc * 10 + (c.toNat - '0'.toNat)) 0

/-- Parse a JSON integer (optional minus sign, then digits). -/
def parseNum : List Char → Option (JValue × List Char)
  | '-' :: cs =>
    match takeDigits cs with
    | ([], _) => none
    | (ds, rest) => some (.num (-(digitsToNat ds : Int)), rest)
  | cs =>
    match takeDigits cs with
    | ([], _) => none
    | (ds, rest) => some (.num (digitsToNat ds), rest)

/-- Replace the value at `k` if present (Python dict update keeps the first
position of the key), otherwise append. -/
def insertKV (kvs : List (String × JValue)) (k : String) (v : JValue) :
    List (String × JValue) :=
  match kvs with
  | [] => [(k, v)]
  | (k', v') :: rest =>
    if k' = k then (k', v) :: rest else (k', v') :: insertKV rest k v

mutual

/-- Parse one JSON value; the fuel bounds recursion and one unit is spent per
consumed token group, so `input.length + 1` always suffices. -/
def parseVal : Nat → List Char → Option (JValue × List Char)
  | 0, _ => none
  | Nat.succ fuel, cs =>
    match skipWs cs with
    | [] => none
    | '{' :: rest =>
      match skipWs rest with
      | '}' :: rest2 => some (.obj [], rest2)
      | rest2 => parseObjRest fuel rest2 []
    | '[' :: rest =>
      match skipWs rest with
      | ']' :: rest2 => some (.arr [], rest2)
      | rest2 => parseArrRest fuel rest2 []
    | '"' :: rest =>
      (parseStringChars rest).map fun (s, r) => (.str (String.mk s), r)
    | 't' :: 'r' :: 'u' :: 'e' :: rest => some (.bool true, rest)
    | 'f' :: 'a' :: 'l' :: 's' :: 'e' :: rest => some (.bool false, rest)
    | 'n' :: 'u' :: 'l' :: 'l' :: rest => some (.null, rest)
    | cs' => parseNum cs'

/-- Parse the members of an object after its opening brace (input positioned
at the first key), accumulating decoded pairs. -/
def parseObjRest : Nat → List Char → List (String × JValue) →
    Option (JValue × List Char)
  | 0, _, _ => none
  | Nat.succ fuel, cs, acc =>
    match cs with
    | '"' :: rest =>
      match parseStringChars rest with
      | none => none
      | some (k, rest2) =>
        match skipWs rest2 with
        | ':' :: rest3 =>
          match parseVal fuel rest3 with
          | none => none
          | some (v, rest4) =>
            let acc' := insertKV acc (String.mk k) v
            match skipWs rest4 with
            | ',' :: rest5 => parseObjRest fuel (skipWs rest5) acc'
            | '}' :: rest5 => some (.obj acc', rest5)
            | _ => none
        | _ => none
    | _ => none

/-- Parse the items of an array after its opening bracket (input positioned at
the first item), accumulating decoded values. -/
def parseArrRest : Nat → List Char → List JValue → Option (JValue × List Char)
  | 0, _, _ => none
  | Nat.succ fuel, cs, acc =>
    match parseVal fuel cs with
    | none => none
    | some (v, rest) =>
      match skipWs rest with
      | ',' :: rest2 => parseArrRest fuel rest2 (acc ++ [v])
      | ']' :: rest2 => some (.arr (acc ++ [v]), rest2)
      | _ => none

end

/-- `json.loads`: decode the whole string, requiring that only whitespace
remains after the value (Python raises `JSONDecodeError` on extra data, which
this embedding renders as `none`). -/
def jsonLoads (s : String) : Option JValue :=
  match parseVal (s.data.length + 1) s.data with
  | some (v, rest) => if (skipWs rest).isEmpty then some v else none
  | none => none

/-! ### `IdeaGenerator._parse_ideas` (brainstorm.py lines 116-126)

The Python code runs `re.search(r'\{[\s\S]*\}', response)`.  The regex is
greedy: the leftmost match starts at the first `{` that is followed by some
`}`, and extends to the last `}` of the whole text. -/

/-- Index of the last `}` in the character list, if any. -/
def lastCloseIdx (cs : List Char) : Option Nat :=
  match cs.reverse.findIdx? (fun c => c = '}') with
  | some r => some (cs.length - 1 - r)
  | none => none

/-- The span matched by the greedy regex `\{[\s\S]*\}`: from the first `{`
strictly before the last `}`, through that last `}` (inclusive); `none` when
the regex has no match. -/
def extractBraceSpan (s : String) : Option String :=
  match lastCloseIdx s.data with
  | none => none
  | some j =>
    match (s.data.take j).findIdx? (fun c => c = '{') with
    | none => none
    | some i => some (String.mk ((s.data.drop i).take (j - i + 1)))

/-- Python `dict.get`: the value at the last binding of `k` in document
order; since `insertKV` keeps keys unique, the first match suffices. -/
def lookupKey (k : String) : List (String × JValue) → Option JValue
  | [] => none
  | (k', v) :: rest => if k' = k then some v else lookupKey k rest

/-- `IdeaGenerator._parse_ideas`: search for the greedy brace span; if none,
return the empty list; if the span decodes, return `data.get("ideas", [data])`;
if decoding fails (`json.JSONDecodeError`), return the single fallback record
`[{"raw_response": response}]`.  A span produced by `extractBraceSpan` starts
with `{`, so a successful decode is always an object (`jsonLoads_braceSpan_obj`
below); the catch-all arm for a non-object decode mirrors that unreachable
case. -/
def parseIdeas (response : String) : JValue :=
  match extractBraceSpan response with
  | none => .arr []
  | some t =>
    match jsonLoads t with
    | some (.obj kvs) => (lookupKey "ideas" kvs).getD (.arr [.obj kvs])
    | some v => .arr [v]
    | none => .arr [.obj [("raw_response", .str response)]]

/-! ### `MultiLLMManager` (multi_llm.py)

`client.generate` is modelled as a function `gen : LLMConfig → Except String
String`: `.ok content` for a normal return, `.error e` for a raised exception
(with `e` the exception's string form). -/

/-- `LLMConfig` dataclass (multi_llm.py lines 11-18). -/
structure LLMConfig where
  provider : String
  model : String
  apiKey : Option String := none
  baseUrl : Option String := none
  enabled : Bool := true
deriving Repr, DecidableEq

/-- `LLMResponse` dataclass (multi_llm.py lines 21-28). -/
structure LLMResponse where
  provider : String
  model : String
  content : String
  success : Bool
  error : Option String := none
deriving Repr, DecidableEq

/-- `MultiLLMManager.add_llm` (multi_llm.py lines 40-44): append the
configuration to `self.llm_configs` only when `config.enabled` is set;
disabled configurations are never stored. -/
def addLLM (configs : List LLMConfig) (config : LLMConfig) : List LLMConfig :=
  if config.enabled then configs ++ [config] else configs

/-- `MultiLLMManager._generate_single` (lines 67-98): on a normal client
return, wrap the content with `success=True`; on any exception, return
`content=""`, `success=False` and the exception text. -/
def generateSingle (gen : LLMConfig → Except String String)
    (config : LLMConfig) : LLMResponse :=
  match gen config with
  | .ok content =>
    { provider := config.provider, model := config.model
      content := content, success := true, error := none }
  | .error e =>
    { provider := config.provider, model := config.model
      content := "", success := false, error := some e }

/-- `MultiLLMManager.generate_parallel` (lines 100-132): raises `ValueError`
("No LLMs configured") on an empty configuration list, otherwise submits
`_generate_single` for every configuration to a thread pool and collects every
future's result.  `as_completed` yields the results in completion order, an
arbitrary permutation of submission order; this embedding fixes submission
order, and the properties proved below (result count, one result per
configuration) are permutation-invariant. -/
def generateParallel (gen : LLMConfig → Except String String)
    (configs : List LLMConfig) : Except String (List LLMResponse) :=
  if configs.isEmpty then .error "No LLMs configured"
  else .ok (configs.map (generateSingle gen))

/-! ### `MultiLLMManager._get_client` (multi_llm.py lines 46-65)

The client cache `self._clients` maps the string `f"{provider}_{model}"` to a
constructed client.  Clients are modelled by the order of their construction
(a fresh natural number per construction): two cache entries hold the same
client exactly when they hold equal numbers. -/

/-- The cache key: `f"{config.provider}_{config.model}"` (line 48). -/
def clientKey (config : LLMConfig) : String :=
  config.provider ++ "_" ++ config.model

/-- The manager's mutable client state: the cache as an association list in
insertion order, plus the number of clients constructed so far (the next
fresh client identity). -/
structure ClientState where
  clients : List (String × Nat)
  nextId : Nat
deriving Repr, DecidableEq

/-- The empty cache of a fresh `MultiLLMManager`. -/
def initClientState : ClientState := ⟨[], 0⟩

/-- Association-list lookup (Python `key not in self._clients` test plus
`self._clients[key]`). -/
def findClient (key : String) : List (String × Nat) → Option Nat
  | [] => none
  | (k, v) :: rest => if k = key then some v else findClient key rest

/-- `_get_client`: return the cached client for the config's key, constructing
and caching a fresh one on a miss. -/
def getClient (st : ClientState) (config : LLMConfig) : Nat × ClientState :=
  match findClient (clientKey config) st.clients with
  | some id => (id, st)
  | none =>
    (st.nextId, ⟨st.clients ++ [(clientKey config, st.nextId)], st.nextId + 1⟩)

/-- Well-formedness of the cache: every stored client identity is below
`nextId` and no two entries share a client identity.  Holds for
`initClientState` and is preserved by `getClient`. -/
def ClientStateWF (st : ClientState) : Prop :=
  (∀ kv ∈ st.clients, kv.2 < st.nextId) ∧ (st.clients.map Prod.snd).Nodup

/-! ### `ClaudeClient._direct_http_generate` (claude_client.py lines 137-215)

One HTTP attempt is modelled by `transport : Nat → HttpOutcome` giving the
outcome of attempt number `n` (0-based).  Sleep durations (seconds) are
recorded explicitly; `requests.exceptions.Timeout` and
`requests.exceptions.ConnectionError` are the transient outcomes. -/

/-- Outcome of one `session.post` + `raise_for_status` + extraction. -/
inductive HttpOutcome where
  | ok : String → HttpOutcome
  | transientError : String → HttpOutcome
  | httpError : Nat → String → HttpOutcome
  | otherError : String → HttpOutcome
deriving Repr, DecidableEq

/-- Result of the retry loop: the returned text or the raised exception text,
the sleeps performed (in order, seconds), and the number of attempts made. -/
structure HttpResult where
  result : Except String String
  sleeps : List Nat
  attempts : Nat
deriving Repr

/-- The `for attempt in range(max_retries)` loop of `_direct_http_generate`,
recursing on the number of remaining iterations (`remaining = maxRetries -
attempt`; the Python guard `attempt < max_retries - 1` is `remaining ≥ 2`).
Transient errors and HTTP 502 sleep `delay` and double it before retrying when
iterations remain, and re-raise otherwise; other HTTP errors and other
exceptions re-raise at once.  The `remaining = 0` arm is Python's implicit
`return None` after the loop, unreachable for `maxRetries ≥ 1` since the last
iteration always returns or raises. -/
def retryLoop (transport : Nat → HttpOutcome) :
    Nat → Nat → Nat → List Nat → HttpResult
  | 0, attempt, _, sleeps => ⟨.error "None", sleeps.reverse, attempt⟩
  | Nat.succ remaining, attempt, delay, sleeps =>
    match transport attempt with
    | .ok text => ⟨.ok text, sleeps.reverse, attempt + 1⟩
    | .transientError e =>
      if 1 ≤ remaining then
        retryLoop transport remaining (attempt + 1) (delay * 2) (delay :: sleeps)
      else ⟨.error e, sleeps.reverse, attempt + 1⟩
    | .httpError status e =>
      if status = 502 ∧ 1 ≤ remaining then
        retryLoop transport remaining (attempt + 1) (delay * 2) (delay :: sleeps)
      else ⟨.error e, sleeps.reverse, attempt + 1⟩
    | .otherError e => ⟨.error e, sleeps.reverse, attempt + 1⟩

/-- `_direct_http_generate`: `max_retries = 3`, `retry_delay = 1.0`. -/
def directHttpGenerate (transport : Nat → HttpOutcome) : HttpResult :=
  retryLoop transport 3 0 1 []

/-- `ClaudeClient.generate` (lines 46-99) on the direct-HTTP path: any
exception from `_direct_http_generate` is re-raised as
`RuntimeError(f"Claude API error: {e}")`. -/
def claudeGenerate (transport : Nat → HttpOutcome) : HttpResult :=
  let r := directHttpGenerate transport
  match r.result with
  | .ok _ => r
  | .error e => { r with result := .error ("Claude API error: " ++ e) }

/-! ### `IdeaGenerator._generate_multi_llm` (brainstorm.py lines 171-206) -/

/-- `BrainstormReport` dataclass (brainstorm.py lines 12-18). -/
structure BrainstormReport where
  provider : String
  model : String
  ideas : JValue
  rawResponse : String
deriving Repr

/-- The response-processing loop of `_generate_multi_llm` (lines 190-200): for
each response, if `resp.success`, parse its content and append a
`BrainstormReport`; failed responses are skipped. -/
def processReports : List LLMResponse → List BrainstormReport
  | [] => []
  | resp :: rest =>
    if resp.success then
      { provider := resp.provider, model := resp.model
        ideas := parseIdeas resp.content
        rawResponse := resp.content } :: processReports rest
    else processReports rest

/-! ### `IdeaGenerator._summarize_ideas` (brainstorm.py lines 208-248)

`self.client.generate` is modelled as `gen : String → String` from the prompt
to the answer text (failure of the summarization call itself is outside every
claim's scope).  The number of generation calls issued is returned alongside
the summary. -/

mutual

/-- A rendering of `json.dumps` sufficient to build the summary prompt; the
claims never inspect the prompt text, only whether a generation call happens
and how its answer is handled. -/
def jsonDumps : JValue → String
  | .null => "null"
  | .bool true => "true"
  | .bool false => "false"
  | .num n => toString n
  | .str s => "\x22" ++ s ++ "\x22"
  | .arr xs => "[" ++ String.intercalate ", " (jsonDumpsList xs) ++ "]"
  | .obj kvs => "\x7b" ++ String.intercalate ", " (jsonDumpsKVs kvs) ++ "\x7d"

/-- Serialize the items of an array. -/
def jsonDumpsList : List JValue → List String
  | [] => []
  | x :: xs => jsonDumps x :: jsonDumpsList xs

/-- Serialize the members of an object. -/
def jsonDumpsKVs : List (String × JValue) → List String
  | [] => []
  | (k, v) :: kvs => ("\x22" ++ k ++ "\x22: " ++ jsonDumps v) :: jsonDumpsKVs kvs

end

/-- The summary prompt built at brainstorm.py lines 214-231 around the
serialized idea list. -/
def summaryPrompt (allIdeas : List JValue) : String :=
  "Analyze these research ideas from multiple AI models:\n\n" ++
    jsonDumps (.arr allIdeas) ++
    "\n\nTasks:\n1. Identify unique ideas (remove duplicates/similar ones)\n" ++
    "2. Rank by novelty and feasibility\n" ++
    "3. Highlight consensus ideas (mentioned by multiple models)\n" ++
    "4. Note unique perspectives from each model\n\nOutput JSON"

/-- `_summarize_ideas`: on an empty idea list, return
`{"unique_ideas": [], "summary": "No ideas generated"}` with no generation
call; otherwise issue one generation call, extract the greedy brace span from
the answer and decode it, and on any failure (no span, or `JSONDecodeError`)
fall back to `{"unique_ideas": all_ideas, "summary": response}`.  The second
component counts generation calls. -/
def summarizeIdeas (gen : String → String) (allIdeas : List JValue) :
    JValue × Nat :=
  if allIdeas.isEmpty then
    (.obj [("unique_ideas", .arr []), ("summary", .str "No ideas generated")], 0)
  else
    let response := gen (summaryPrompt allIdeas)
    match extractBraceSpan response with
    | some t =>
      match jsonLoads t with
      | some v => (v, 1)
      | none =>
        (.obj [("unique_ideas", .arr allIdeas), ("summary", .str response)], 1)
    | none =>
      (.obj [("unique_ideas", .arr allIdeas), ("summary", .str response)], 1)

/-! ## Supporting lemmas -/

/-- Building the configuration list through `add_llm` keeps exactly the
enabled configurations, in order. -/
theorem addLLM_foldl (l : List LLMConfig) : ∀ acc : List LLMConfig,
    l.foldl addLLM acc = acc ++ l.filter fun c => c.enabled := by
  induction l with
  | nil => simp
  | cons c rest ih =>
    intro acc
    by_cases h : c.enabled <;>
      simp [addLLM, h, ih, List.filter_cons, List.foldl_cons]

/-- A successful cache lookup returns a stored entry. -/
theorem findClient_mem {key : String} {l : List (String × Nat)} {v : Nat}
    (h : findClient key l = some v) : (key, v) ∈ l := by
  induction l with
  | nil => simp [findClient] at h
  | cons e rest ih =>
    obtain ⟨k, w⟩ := e
    by_cases hk : k = key
    · simp [findClient, hk] at h
      subst hk
      subst h
      exact List.mem_cons_self _ _
    · simp [findClient, hk] at h
      exact List.mem_cons_of_mem _ (ih h)

/-- Looking up in a cache extended by one entry: the old cache wins, and the
new entry is found exactly on its own key. -/
theorem findClient_append (key : String) (l : List (String × Nat))
    (e : String × Nat) :
    findClient key (l ++ [e]) =
      match findClient key l with
      | some v => some v
      | none => if e.1 = key then some e.2 else none := by
  induction l with
  | nil => simp [findClient]
  | cons f rest ih =>
    by_cases hk : f.1 = key <;> simp [findClient, hk, ih]

/-- A successful `parseObjRest` always yields an object value. -/
theorem parseObjRest_obj : ∀ (fuel : Nat) (cs : List Char)
    (acc : List (String × JValue)) (v : JValue) (r : List Char),
    parseObjRest fuel cs acc = some (v, r) → ∃ kvs, v = .obj kvs := by
  intro fuel
  induction fuel with
  | zero => intro cs acc v r h; simp [parseObjRest] at h
  | succ fuel ih =>
    intro cs acc v r h
    unfold parseObjRest at h
    repeat' split at h
    all_goals
      first
        | exact ih _ _ _ _ h
        | (simp at h; exact ⟨_, h.1.symm⟩)
        | simp at h

/-- A successful `parseVal` on input starting with `{` yields an object. -/
theorem parseVal_brace (fuel : Nat) (cs : List Char) (v : JValue)
    (r : List Char) (h : parseVal (fuel + 1) ('{' :: cs) = some (v, r)) :
    ∃ kvs, v = .obj kvs := by
  rw [show parseVal (fuel + 1) ('{' :: cs)
      = (match skipWs cs with
         | '}' :: rest2 => some (JValue.obj [], rest2)
         | rest2 => parseObjRest fuel rest2 []) from rfl] at h
  split at h
  · simp at h
    exact ⟨_, h.1.symm⟩
  · exact parseObjRest_obj _ _ _ _ _ h

/-- A span extracted by the greedy regex starts with `{`. -/
theorem extractBraceSpan_data (s t : String) (h : extractBraceSpan s = some t) :
    ∃ cs, t.data = '{' :: cs := by
  unfold extractBraceSpan at h
  rcases hj : lastCloseIdx s.data with _ | j
  all_goals rw [hj] at h; dsimp only at h
  · exact absurd h (by simp)
  rcases hi : (s.data.take j).findIdx? (fun c => c = '{') with _ | i
  all_goals rw [hi] at h; dsimp only at h
  · exact absurd h (by simp)
  rw [List.findIdx?_eq_some_iff_getElem] at hi
  obtain ⟨hlen, hp, -⟩ := hi
  have hij : i < j ∧ i < s.data.length := by
    rw [List.length_take] at hlen
    omega
  have hchar : s.data[i] = '{' := by
    have := of_decide_eq_true hp
    rwa [List.getElem_take] at this
  simp only [Option.some.injEq] at h
  refine ⟨(s.data.drop (i + 1)).take (j - i), ?_⟩
  rw [← h]
  show (s.data.drop i).take (j - i + 1) = _
  rw [List.drop_eq_getElem_cons hij.2, hchar, List.take_succ_cons]

/-- The `data.get` arm of `_parse_ideas` only ever sees objects: a greedy
brace span that decodes successfully decodes to an object (so the non-object
arm of `parseIdeas`, where Python would hit an uncaught `AttributeError`, is
unreachable). -/
theorem jsonLoads_braceSpan_obj (s t : String) (v : JValue)
    (hspan : extractBraceSpan s = some t) (h : jsonLoads t = some v) :
    ∃ kvs, v = .obj kvs := by
  obtain ⟨cs, hcs⟩ := extractBraceSpan_data s t hspan
  unfold jsonLoads at h
  rw [hcs] at h
  split at h
  · rename_i x v2 rest hp
    split at h
    · simp only [Option.some.injEq] at h
      subst h
      exact parseVal_brace (cs.length + 1) cs v2 rest (by simpa using hp)
    · simp at h
  · simp at h

/-! ## Claim theorems -/

/-- C1: a dispatch over a manager whose configuration list was built by
`add_llm` from any configuration sequence with at least one enabled entry
returns exactly one `LLMResponse` per enabled configuration — N results for N
enabled configurations — regardless of whether each individual generate call
succeeds or fails (the outcome function `gen` is arbitrary).  With zero
enabled configurations `generate_parallel` raises `ValueError` instead of
returning, so every dispatch that returns satisfies the count. -/
theorem generateParallel_one_result_per_enabled_config
    (gen : LLMConfig → Except String String) (added : List LLMConfig)
    (h : (added.filter fun c => c.enabled) ≠ []) :
    ∃ rs, generateParallel gen (added.foldl addLLM []) = .ok rs ∧
      rs.length = (added.filter fun c => c.enabled).length := by
  rw [addLLM_foldl, List.nil_append]
  refine ⟨(added.filter fun c => c.enabled).map (generateSingle gen), ?_, by simp⟩
  simp [generateParallel, h]

/-- Witness for C1: three configurations, one disabled, one provider
failing — the dispatch still returns exactly two results. -/
theorem generateParallel_one_result_per_enabled_config_witness :
    ∃ rs, generateParallel
        (fun c => if c.provider = "gemini" then .error "boom" else .ok "ideas")
        ([⟨"anthropic", "m1", none, none, true⟩,
          ⟨"openai", "m2", none, none, false⟩,
          ⟨"gemini", "m3", none, none, true⟩].foldl addLLM []) = .ok rs ∧
      rs.length = 2 := by
  obtain ⟨rs, h1, h2⟩ := generateParallel_one_result_per_enabled_config
    (fun c => if c.provider = "gemini" then .error "boom" else .ok "ideas")
    [⟨"anthropic", "m1", none, none, true⟩,
     ⟨"openai", "m2", none, none, false⟩,
     ⟨"gemini", "m3", none, none, true⟩] (by decide)
  exact ⟨rs, h1, h2.trans rfl⟩

/-- C2 counterexample: the claimed invariant "raw text is non-empty iff
success is true" is false: a client whose `generate` returns the empty string
produces a result with `success = true` and empty content. -/
theorem content_nonempty_iff_success_counterexample :
    ¬ ∀ (gen : LLMConfig → Except String String) (config : LLMConfig),
        ((generateSingle gen config).content ≠ "" ↔
          (generateSingle gen config).success = true) := by
  intro hall
  have h := (hall (fun _ => .ok "") ⟨"anthropic", "m", none, none, true⟩).mpr rfl
  exact h rfl

/-- C2 amended: in every `LLMResponse` produced by `_generate_single`, the
content is empty or the success flag is true — equivalently, a failure always
carries empty content and non-empty content implies success; a success may
carry empty content when the client returns the empty string. -/
theorem generateSingle_content_empty_or_success
    (gen : LLMConfig → Except String String) (config : LLMConfig) :
    (generateSingle gen config).content = "" ∨
      (generateSingle gen config).success = true := by
  cases h : gen config <;> simp [generateSingle, h]

/-- C3 counterexample: on input `"hello"`, which contains no JSON object,
`_parse_ideas` returns the empty sequence, not a one-element fallback record
holding the raw text. -/
theorem parseIdeas_no_json_counterexample :
    parseIdeas "hello" = .arr [] ∧
    JValue.arr [] ≠ .arr [.obj [("raw_response", .str "hello")]] :=
  ⟨rfl, by simp⟩

/-- C3 amended: `_parse_ideas` never raises, and its two failure paths are:
no brace span found — the empty sequence is returned and the answer is
discarded; a span found but failing to decode — exactly one fallback record
holding the raw input text is returned. -/
theorem parseIdeas_error_paths (s : String) :
    (extractBraceSpan s = none → parseIdeas s = .arr []) ∧
    (∀ t, extractBraceSpan s = some t → jsonLoads t = none →
      parseIdeas s = .arr [.obj [("raw_response", .str s)]]) := by
  constructor
  · intro h
    simp [parseIdeas, h]
  · intro t h1 h2
    simp [parseIdeas, h1, h2]

/-- Witness for C3 amended: `"hello"` has no span and yields the empty
sequence; `"{x}"` has a span that fails to decode and yields the fallback. -/
theorem parseIdeas_error_paths_witness :
    parseIdeas "hello" = .arr [] ∧
    parseIdeas "\x7bx\x7d" =
      .arr [.obj [("raw_response", .str "\x7bx\x7d")]] :=
  ⟨(parseIdeas_error_paths "hello").1 rfl,
   (parseIdeas_error_paths "\x7bx\x7d").2 "\x7bx\x7d" rfl rfl⟩

/-- C4 counterexample: extra braces elsewhere in the text do change which
object is extracted: with one extra `}` after the ideas object, the greedy
span runs from the first `{` to that last `}`, fails to decode, and parse
falls back to a raw-response record instead of the ideas list with title
`"X"`. -/
theorem parseIdeas_extra_brace_counterexample :
    parseIdeas "blah \x7b\"ideas\":[\x7b\"title\":\"X\"\x7d]\x7d \x7d" =
      .arr [.obj [("raw_response",
        .str "blah \x7b\"ideas\":[\x7b\"title\":\"X\"\x7d]\x7d \x7d")]] ∧
    JValue.arr [.obj [("raw_response",
        .str "blah \x7b\"ideas\":[\x7b\"title\":\"X\"\x7d]\x7d \x7d")]] ≠
      .arr [.obj [("title", .str "X")]] :=
  ⟨rfl, by simp⟩

/-- C4 amended: `_parse_ideas` extracts the greedy span from the first `{`
preceding the last `}` through that last `}` (not the first balanced object,
and without searching for an `"ideas"` key); when that span decodes to an
object with an `"ideas"` key, the value at that key is returned.  On the
spec's example input this yields exactly one `IdeaRecord` with title `"X"`
(the witness), but braces after the object shift the span. -/
theorem parseIdeas_greedy_span_ideas (s t : String)
    (kvs : List (String × JValue)) (v : JValue)
    (hspan : extractBraceSpan s = some t)
    (hload : jsonLoads t = some (.obj kvs))
    (hideas : lookupKey "ideas" kvs = some v) :
    parseIdeas s = v := by
  simp [parseIdeas, hspan, hload, hideas]

/-- Witness for C4 amended: the spec's example input
`"blah blah {\"ideas\":[{\"title\":\"X\"}]} trailing"` returns exactly one
record with title `"X"`. -/
theorem parseIdeas_greedy_span_ideas_witness :
    parseIdeas "blah blah \x7b\"ideas\":[\x7b\"title\":\"X\"\x7d]\x7d trailing" =
      .arr [.obj [("title", .str "X")]] :=
  parseIdeas_greedy_span_ideas _
    "\x7b\"ideas\":[\x7b\"title\":\"X\"\x7d]\x7d"
    [("ideas", .arr [.obj [("title", .str "X")]])] _ rfl rfl rfl

/-- C5: a provider whose transport raises a transient network error on every
attempt makes exactly 3 attempts with backoff sleeps of 1s then 2s, surfaces
the last error (wrapped by `ClaudeClient.generate` as a `RuntimeError` whose
text starts with "Claude API error: "), and the dispatch captures it as a
result with `success = false` and a populated (non-empty) error
description. -/
theorem claude_transient_retries_then_failure
    (transport : Nat → HttpOutcome) (msg : String) (config : LLMConfig)
    (h : ∀ n, transport n = .transientError msg) :
    directHttpGenerate transport = ⟨.error msg, [1, 2], 3⟩ ∧
    generateSingle (fun _ => (claudeGenerate transport).result) config =
      { provider := config.provider, model := config.model, content := ""
        success := false, error := some ("Claude API error: " ++ msg) } ∧
    ("Claude API error: " ++ msg) ≠ "" := by
  refine ⟨by simp [directHttpGenerate, retryLoop, h], ?_, ?_⟩
  · simp [generateSingle, claudeGenerate, directHttpGenerate, retryLoop, h]
  · intro heq
    have h2 := congrArg String.data heq
    rw [String.data_append] at h2
    simp at h2

/-- Witness for C5: a transport that times out on every attempt. -/
theorem claude_transient_retries_then_failure_witness :
    directHttpGenerate (fun _ => .transientError "timed out") =
      ⟨.error "timed out", [1, 2], 3⟩ ∧
    generateSingle
        (fun _ => (claudeGenerate (fun _ => .transientError "timed out")).result)
        ⟨"anthropic", "m", none, none, true⟩ =
      { provider := "anthropic", model := "m", content := ""
        success := false, error := some ("Claude API error: " ++ "timed out") } ∧
    ("Claude API error: " ++ "timed out") ≠ "" :=
  claude_transient_retries_then_failure (fun _ => .transientError "timed out")
    "timed out" ⟨"anthropic", "m", none, none, true⟩ (fun _ => rfl)

/-- C6: for every non-empty combined idea sequence whose reconciliation
answer yields no decodable brace span (no span at all, or a span that fails
to decode), `_summarize_ideas` returns the fallback summary whose
unique-idea list is the unreconciled input and whose free-text summary is the
raw answer, after exactly one generation call; it never raises on a
malformed answer (the embedding is total). -/
theorem summarizeIdeas_parse_failure_fallback (gen : String → String)
    (allIdeas : List JValue) (hne : allIdeas ≠ [])
    (hfail : (extractBraceSpan (gen (summaryPrompt allIdeas))).bind
      jsonLoads = none) :
    summarizeIdeas gen allIdeas =
      (.obj [("unique_ideas", .arr allIdeas),
             ("summary", .str (gen (summaryPrompt allIdeas)))], 1) := by
  rcases h : extractBraceSpan (gen (summaryPrompt allIdeas)) with _ | t
  · simp [summarizeIdeas, hne, h]
  · rw [h] at hfail
    simp at hfail
    simp [summarizeIdeas, hne, h, hfail]

/-- Witness for C6: a one-idea input whose reconciliation answer contains no
JSON object at all. -/
theorem summarizeIdeas_parse_failure_fallback_witness :
    summarizeIdeas (fun _ => "no json here") [JValue.str "idea"] =
      (.obj [("unique_ideas", .arr [JValue.str "idea"]),
             ("summary", .str "no json here")], 1) :=
  summarizeIdeas_parse_failure_fallback (fun _ => "no json here")
    [JValue.str "idea"] (List.cons_ne_nil _ _) rfl

/-- C7: on the empty idea sequence, `_summarize_ideas` returns the empty
summary `{"unique_ideas": [], "summary": "No ideas generated"}` immediately
and issues zero generation calls, for every possible generation backend. -/
theorem summarizeIdeas_empty_no_calls (gen : String → String) :
    summarizeIdeas gen [] =
      (.obj [("unique_ideas", .arr []),
             ("summary", .str "No ideas generated")], 0) := rfl

/-- C8 counterexample: the cache key is the string `provider + "_" + model`,
so the two distinct (provider, model) pairs `("a", "b_c")` and `("a_b", "c")`
collide on the key `"a_b_c"` and receive the same cached client, refuting
"distinct pairs always get distinct entries". -/
theorem clientKey_collision_counterexample :
    (LLMConfig.provider ⟨"a", "b_c", none, none, true⟩,
     LLMConfig.model ⟨"a", "b_c", none, none, true⟩) ≠
      (LLMConfig.provider ⟨"a_b", "c", none, none, true⟩,
       LLMConfig.model ⟨"a_b", "c", none, none, true⟩) ∧
    (getClient initClientState ⟨"a", "b_c", none, none, true⟩).1 =
      (getClient (getClient initClientState ⟨"a", "b_c", none, none, true⟩).2
        ⟨"a_b", "c", none, none, true⟩).1 :=
  ⟨by decide, rfl⟩

/-- C8 amended: the client cache is keyed by the joined string
`f"{provider}_{model}"`: two sequential lookups from any well-formed cache
state return the same client exactly when the joined keys are equal — equal
keys (in particular equal (provider, model) pairs) share one client, and
distinct keys get distinct clients; distinct (provider, model) pairs whose
joined keys coincide share a client. -/
theorem getClient_cache_spec (st : ClientState) (c1 c2 : LLMConfig)
    (hwf : ClientStateWF st) :
    (clientKey c1 = clientKey c2 →
      (getClient st c1).1 = (getClient (getClient st c1).2 c2).1) ∧
    (clientKey c1 ≠ clientKey c2 →
      (getClient st c1).1 ≠ (getClient (getClient st c1).2 c2).1) := by
  obtain ⟨hlt, hnd⟩ := hwf
  constructor
  · intro hkey
    rcases h1 : findClient (clientKey c1) st.clients with _ | v1
    · simp [getClient, h1, ← hkey, findClient_append]
    · simp [getClient, h1, ← hkey]
  · intro hkey
    rcases h1 : findClient (clientKey c1) st.clients with _ | v1
    · rcases h2 : findClient (clientKey c2) st.clients with _ | v2
      · simp [getClient, h1, findClient_append, h2, hkey]
      · have hv2 := hlt _ (findClient_mem h2)
        simp [getClient, h1, findClient_append, h2]
        omega
    · rcases h2 : findClient (clientKey c2) st.clients with _ | v2
      · have hv1 := hlt _ (findClient_mem h1)
        simp [getClient, h1, h2]
        omega
      · have m1 := findClient_mem h1
        have m2 := findClient_mem h2
        intro heq
        simp [getClient, h1, h2] at heq
        subst heq
        have := List.inj_on_of_nodup_map hnd m1 m2 rfl
        simp at this
        exact hkey this

/-- Witness for C8 amended: from the empty (well-formed) cache, the distinct
keys `"anthropic_m1"` and `"openai_m2"` receive distinct clients. -/
theorem getClient_cache_spec_witness :
    (getClient initClientState ⟨"anthropic", "m1", none, none, true⟩).1 ≠
      (getClient
        (getClient initClientState ⟨"anthropic", "m1", none, none, true⟩).2
        ⟨"openai", "m2", none, none, true⟩).1 :=
  (getClient_cache_spec initClientState
    ⟨"anthropic", "m1", none, none, true⟩ ⟨"openai", "m2", none, none, true⟩
    ⟨by simp [initClientState], by simp [initClientState]⟩).2 (by decide)

/-- C9 counterexample: a successful response whose answer contains no JSON
object parses to zero idea records, yet a report is still appended for it —
refuting "a report exists for a successful response only when its answer
parsed into at least one idea record". -/
theorem report_for_unparsed_success_counterexample :
    parseIdeas "hello" = .arr [] ∧
    (processReports [⟨"openai", "m", "hello", true, none⟩]).length = 1 :=
  ⟨rfl, rfl⟩

/-- C9 amended: after a multi-LLM generation pass there is exactly one
report per response with `success = true`, carrying that response's parsed
ideas (possibly empty) and raw text, regardless of whether the answer parsed
into any idea records; responses with `success = false` produce no report. -/
theorem processReports_eq_filter_success (responses : List LLMResponse) :
    processReports responses =
      (responses.filter fun r => r.success).map fun r =>
        { provider := r.provider, model := r.model
          ideas := parseIdeas r.content, rawResponse := r.content } := by
  induction responses with
  | nil => rfl
  | cons r rest ih =>
    by_cases h : r.success <;> simp [processReports, h, ih, List.filter_cons]

/-- C10: when the extracted brace span decodes to an object with no
`"ideas"` key, `_parse_ideas` returns the one-element sequence holding the
entire decoded object itself (`data.get("ideas", [data])`). -/
theorem parseIdeas_missing_ideas_key (s t : String)
    (kvs : List (String × JValue))
    (hspan : extractBraceSpan s = some t)
    (hload : jsonLoads t = some (.obj kvs))
    (hkey : lookupKey "ideas" kvs = none) :
    parseIdeas s = .arr [.obj kvs] := by
  simp [parseIdeas, hspan, hload, hkey]

/-- Witness for C10: the input `{"a":1}` decodes to an object with no
`"ideas"` key and parses to that whole object as the single record. -/
theorem parseIdeas_missing_ideas_key_witness :
    parseIdeas "\x7b\"a\":1\x7d" = .arr [.obj [("a", .num 1)]] :=
  parseIdeas_missing_ideas_key "\x7b\"a\":1\x7d" "\x7b\"a\":1\x7d"
    [("a", .num 1)] rfl rfl rfl

end Papergen
